import Mathlib

/-!
Verification development for the request-routing and context-management core
of the `nasus` multi-agent system.  The Lean definitions below are a shallow
embedding of the Python sources:

* `src/core/context_manager.py` (`ContextManager`)
* `src/core/agent_registry.py`  (`AgentRegistry`)
* `src/core/orchestrator.py`    (`Orchestrator`)
* `src/core/types.py`           (dataclasses)

Python strings are modelled as Lean `String` (a wrapper around `List Char`);
Python ints as `Int` (token counters) or `Nat` (sizes); Python dicts as
insertion-ordered association lists; raised exceptions as the `error` branch
of `Except String` carrying the exception message; external collaborators
(LLM provider, agents, disk, `json.loads`) as explicit parameters of an
environment record.  Floating point appears only as the two literal
confidence constants 0.6/0.7 and the default threshold `int(4000 * 0.8)`,
whose values are exact; they are modelled as rationals / the literal 3200.
-/

namespace Nasus

/-- The character with a left-brace code point (code 123), used by the JSON
extraction heuristic of `Orchestrator._classify_intent`. -/
def lbrace : Char := Char.ofNat 123

/-- The character with a right-brace code point (code 125). -/
def rbrace : Char := Char.ofNat 125

/-- Python whitespace predicate backing `str.strip`: space, tab, LF, CR,
vertical tab (11) and form feed (12). -/
def isPySpace (c : Char) : Bool :=
  c = ' ' || c = '\t' || c = '\n' || c = '\r' || c = Char.ofNat 11 || c = Char.ofNat 12

/-- One-character lowering as performed by Python `str.lower` on the ASCII
range (the intent strings handled by the registry are ASCII). -/
def lowerChar (c : Char) : Char :=
  if 65 ≤ c.toNat ∧ c.toNat ≤ 90 then Char.ofNat (c.toNat + 32) else c

/-- Python `s.lower()` (ASCII fragment). -/
def pyLower (s : String) : String := ⟨s.data.map lowerChar⟩

/-- Strip Python-whitespace from both ends of a character list, leading end
first, as `str.strip` does. -/
def stripList (l : List Char) : List Char :=
  ((l.dropWhile isPySpace).reverse.dropWhile isPySpace).reverse

/-- Python `s.strip()`. -/
def pyStrip (s : String) : String := ⟨stripList s.data⟩

/-- Does `hay` start with `needle`? (helper for the substring test). -/
def listStartsWith : List Char → List Char → Bool
  | _, [] => true
  | [], _ :: _ => false
  | a :: as, b :: bs => a = b && listStartsWith as bs

/-- Does `hay` contain `needle` as a contiguous run?  Models Python's
`needle in hay` on strings (the empty needle matches everything). -/
def listContainsSub : List Char → List Char → Bool
  | [], needle => needle.isEmpty
  | a :: as, needle => listStartsWith (a :: as) needle || listContainsSub as needle

/-- Python `sub in s` substring containment on strings. -/
def strContains (s sub : String) : Bool := listContainsSub s.data sub.data

/-- Python slice `xs[-K:]` for a non-negative int `K`: the last `K` elements
when `K > 0`; for `K = 0` Python evaluates `xs[-0:] = xs[0:]`, the whole
list. -/
def pySliceLast (K : Nat) (xs : List α) : List α :=
  if 0 < K then xs.drop (xs.length - K) else xs

/-- Python `"\n".join(parts)`. -/
def joinNl : List String → String
  | [] => ""
  | [p] => p
  | p :: q :: rest => p ++ "\n" ++ joinNl (q :: rest)

/-- Write-through update of an insertion-ordered dict modelled as an
association list: overwrite in place if the key exists (keeping its
position, as Python dicts do), else append at the end. -/
def dictSet : List (String × α) → String → α → List (String × α)
  | [], k, v => [(k, v)]
  | (k', v') :: rest, k, v =>
    if k' = k then (k, v) :: rest else (k', v') :: dictSet rest k v

/-- Lookup in an insertion-ordered dict (keys are unique by construction). -/
def dictGet : List (String × α) → String → Option α
  | [], _ => none
  | (k', v') :: rest, k => if k' = k then some v' else dictGet rest k

/-! ## Data model (`src/core/types.py`) -/

/-- One entry of an agent response's `tool_calls` list, a Python dict with
optional keys `type`, `filename` and `summary` (`none` models an absent
key), as read by `ContextManager.update_context`. -/
structure ToolCall where
  type : Option String
  filename : Option String
  summary : Option String
deriving DecidableEq

/-- `AgentResponse` dataclass.  `result` is typed `Any` in Python but the
orchestrator only ever uses it as text; it is modelled as a `String`, with
the empty string standing for all falsy results. -/
structure AgentResponse where
  task_id : String
  status : String
  result : String
  actions_taken : List String
  tokens_used : Int
  tool_calls : List ToolCall
deriving DecidableEq

/-- `ConversationTurn` dataclass. -/
structure ConversationTurn where
  user : String
  assistant : String
  timestamp : String
  tokens_used : Int
deriving DecidableEq

/-- `ContextSummary` dataclass: the per-session conversation context.
`active_files` is a Python dict modelled as an insertion-ordered
association list. -/
structure ContextSummary where
  session_id : String
  conversation_summary : String
  recent_turns : List ConversationTurn
  active_files : List (String × String)
  task_history : List String
  total_tokens_used : Int
  created_at : String
  updated_at : String
deriving DecidableEq

/-- A fresh context, as built by `ContextSummary(session_id=session_id)`:
empty summary, no turns, no files, no history, zero token counter, and the
current timestamp in both date fields. -/
def freshContext (sid now : String) : ContextSummary :=
  ⟨sid, "", [], [], [], 0, now, now⟩

/-! ## ContextManager (`src/core/context_manager.py`) -/

/-- Effect of one `tool_call` dict on `active_files` inside
`ContextManager.update_context`: entries tagged `"type": "file_operation"`
with a truthy `filename` set `active_files[filename]` to the tool call's
`summary`, defaulting to `"Modified by {task_id}"` when the key is absent. -/
def applyToolCall (taskId : String) (af : List (String × String)) (tc : ToolCall) :
    List (String × String) :=
  if tc.type = some "file_operation" then
    match tc.filename with
    | some f =>
      if f ≠ "" then dictSet af f (tc.summary.getD ("Modified by " ++ taskId)) else af
    | none => af
  else af

/-- `ContextManager.update_context` as a pure state transformer on the
session context (`K` is `settings.recent_turns_to_keep`, `now` the
`datetime.now().isoformat()` timestamp; the best-effort `_save_to_disk`
call is modelled at the orchestrator level as a write event). -/
def updateContext (K : Nat) (now : String) (c : ContextSummary)
    (user assistant : String) (agent_responses : List AgentResponse)
    (tokens_used : Int) : ContextSummary :=
  let turn : ConversationTurn := ⟨user, assistant, now, tokens_used⟩
  let turns1 := c.recent_turns ++ [turn]
  let turns2 := if turns1.length > K then pySliceLast K turns1 else turns1
  let files2 := agent_responses.foldl
    (fun af r => r.tool_calls.foldl (applyToolCall r.task_id) af) c.active_files
  let hist2 := c.task_history ++ (agent_responses.map (fun r => r.actions_taken)).flatten
  { c with
    recent_turns := turns2
    active_files := files2
    task_history := hist2
    total_tokens_used := c.total_tokens_used + tokens_used
    updated_at := now }

/-- Arguments of one `update_context` call (minus the session id). -/
structure UpdateInput where
  now : String
  user : String
  assistant : String
  agent_responses : List AgentResponse
  tokens_used : Int

/-- A sequence of `update_context` calls applied in order to a context,
with no intervening summarization. -/
def applyUpdates (K : Nat) (inputs : List UpdateInput) (c : ContextSummary) :
    ContextSummary :=
  inputs.foldl
    (fun c inp =>
      updateContext K inp.now c inp.user inp.assistant inp.agent_responses inp.tokens_used)
    c

/-- `ContextManager.summarize_context` as a pure function of the session
context and the outcome of the single summarization LLM call (the `error`
branch carries the exception message of a raised provider error).  On
success the generated text replaces `conversation_summary` and
`recent_turns` collapses to `[recent_turns[-1]]` when non-empty; on failure
the exception is caught and the context is left untouched — the code makes
exactly one LLM attempt, with no retry loop. -/
def summarizeContext (llm : Except String String) (c : ContextSummary) :
    ContextSummary :=
  match llm with
  | .error _ => c
  | .ok text =>
    { c with
      conversation_summary := text
      recent_turns :=
        match c.recent_turns with
        | [] => []
        | t :: ts => [(t :: ts).getLast (by simp)] }

/-- `ContextManager._build_full_context`: serialized block of all recent
turns, all active files (when any) and only the last 10 task-history
entries (when any), joined with newlines. -/
def buildFullContext (c : ContextSummary) : String :=
  let parts :=
    (c.recent_turns.map
      (fun t => ["User: " ++ t.user, "Assistant: " ++ t.assistant, ""])).flatten
    ++ (if c.active_files.isEmpty then [] else
        ["Active Files:"]
          ++ c.active_files.map (fun fs => "  - " ++ fs.1 ++ ": " ++ fs.2)
          ++ [""])
    ++ (if c.task_history.isEmpty then [] else
        ["Recent Actions:"]
          ++ (pySliceLast 10 c.task_history).map (fun t => "  - " ++ t)
          ++ [""])
  joinNl parts

/-- `ContextManager._estimate_context_tokens`: length of the serialized
block, integer-divided by 4. -/
def estimateContextTokens (c : ContextSummary) : Nat :=
  (buildFullContext c).length / 4

/-- `ContextManager.should_summarize`: the estimate strictly exceeds the
threshold `int(settings.max_context_tokens * settings.summarization_threshold)`
(3200 with the default settings 4000 and 0.8, since `4000 * 0.8` evaluates
to the exact double `3200.0`). -/
def shouldSummarize (threshold : Nat) (c : ContextSummary) : Bool :=
  decide (estimateContextTokens c > threshold)

/-- The threshold value obtained from the default settings,
`int(4000 * 0.8) = 3200`. -/
def defaultSummarizationThreshold : Nat := 3200

/-! ## AgentRegistry (`src/core/agent_registry.py`) -/

/-- A registered agent.  `BaseAgent` instances are identified in the
registry dict by their `name`; nothing else about them is relevant to the
routing core. -/
structure Agent where
  name : String
deriving DecidableEq

/-- The `AgentRegistry` state: the `agents` dict (name to agent, written by
`register_agent` with last-registration-wins) and the insertion-ordered
`intent_mappings` dict (intent keyword to list of agent names). -/
structure Registry where
  agents : List (String × Agent)
  intent_mappings : List (String × List String)
deriving DecidableEq

/-- The list comprehension
`[self.agents[name] for name in agent_names if name in self.agents]`
shared by both branches of `get_agents_for_intent`. -/
def resolveNames (reg : Registry) (agent_names : List String) : List Agent :=
  agent_names.filterMap (fun n => dictGet reg.agents n)

/-- The fallback loop of `get_agents_for_intent`: scan `intent_mappings` in
insertion order; on the first key with substring containment in either
direction (`key in intent or intent in key`) whose resolved agent list is
non-empty, return that list; a containment match whose agents are all
unregistered falls through to the next key. -/
def fallbackScan (reg : Registry) (intent : String) :
    List (String × List String) → List Agent
  | [] => []
  | (key, names) :: rest =>
    if strContains intent key || strContains key intent then
      let as := resolveNames reg names
      if as.isEmpty then fallbackScan reg intent rest else as
    else fallbackScan reg intent rest

/-- Body of `get_agents_for_intent` after normalization: exact dict match
first (returned even when it resolves to an empty list), else the fallback
scan, else the empty list. -/
def resolveIntentTable (reg : Registry) (intent : String) : List Agent :=
  match dictGet reg.intent_mappings intent with
  | some agent_names => resolveNames reg agent_names
  | none => fallbackScan reg intent reg.intent_mappings

/-- `AgentRegistry.get_agents_for_intent`: the intent is normalized by
`intent.lower().strip()` before any lookup. -/
def getAgentsForIntent (reg : Registry) (intent : String) : List Agent :=
  resolveIntentTable reg (pyStrip (pyLower intent))

/-! ## IntentClassifier (`Orchestrator._classify_intent` and
`Orchestrator._fallback_classification`) -/

/-- The rational 0.5 (the default confidence of the parse path), written
as an explicit fraction so that kernel evaluation is possible. -/
def q05 : ℚ := ⟨1, 2, by decide, by decide⟩

/-- The rational 0.6 (the default-branch fallback confidence). -/
def q06 : ℚ := ⟨3, 5, by decide, by decide⟩

/-- The rational 0.7 (the keyword-branch fallback confidence). -/
def q07 : ℚ := ⟨7, 10, by decide, by decide⟩

/-- The rational 1.5 (the out-of-range confidence of the C2
counterexample). -/
def q15 : ℚ := ⟨3, 2, by decide, by decide⟩

/-- JSON values as produced by `json.loads`: object fields are listed in
document order with unique keys, numbers are modelled as rationals. -/
inductive JVal where
  | jnull : JVal
  | jbool : Bool → JVal
  | jnum : ℚ → JVal
  | jstr : String → JVal
  | jarr : List JVal → JVal
  | jobj : List (String × JVal) → JVal

/-- Python `result.get(key, default)` on the decoded JSON object. -/
def jGet (fields : List (String × JVal)) (key : String) (default : JVal) : JVal :=
  match dictGet fields key with
  | some v => v
  | none => default

/-- `IntentClassification` dataclass.  Python dataclasses do not validate
field types, and the parse path of `_classify_intent` stores whatever JSON
values the model returned; the fields are therefore modelled as `JVal`. -/
structure IntentClassification where
  intent : JVal
  confidence : JVal
  agents : JVal
  reasoning : JVal

/-- Does the classification carry a non-empty agents list? -/
def agentsNonempty (c : IntentClassification) : Bool :=
  match c.agents with
  | .jarr (_ :: _) => true
  | _ => false

/-- Is the classification's confidence a number in the closed interval
[0, 1]? -/
def confidenceInRange (c : IntentClassification) : Bool :=
  match c.confidence with
  | .jnum q => decide (0 ≤ q ∧ q ≤ 1)
  | _ => false

/-- `Orchestrator._fallback_classification`: deterministic keyword
heuristics over the lowercased query; every keyword test is Python
substring containment.  The float confidences 0.7 and 0.6 are exact. -/
def fallbackClassification (query : String) : IntentClassification :=
  let ql := pyLower query
  if ["test", "pytest", "unittest"].any (fun w => strContains ql w) then
    ⟨.jstr "test_writing", .jnum q07, .jarr [.jstr "test_writer"],
     .jstr "Query mentions testing"⟩
  else if ["jira", "ticket", "requirement", "spec"].any (fun w => strContains ql w) then
    ⟨.jstr "requirement_analysis", .jnum q07, .jarr [.jstr "requirement_analyzer"],
     .jstr "Query mentions requirements or Jira"⟩
  else if ["lint", "quality", "review", "check"].any (fun w => strContains ql w) then
    ⟨.jstr "qa_checking", .jnum q07, .jarr [.jstr "qa_checker"],
     .jstr "Query mentions code quality"⟩
  else if ["document", "docs", "readme", "slack"].any (fun w => strContains ql w) then
    ⟨.jstr "documentation", .jnum q07, .jarr [.jstr "docs_agent"],
     .jstr "Query mentions documentation"⟩
  else
    ⟨.jstr "code_generation", .jnum q06, .jarr [.jstr "coder"],
     .jstr "Default to code generation"⟩

/-- Index of the last occurrence of `c` in `cs` (Python `str.rfind`,
restricted to the found case). -/
def listRfind (cs : List Char) (c : Char) : Option Nat :=
  (cs.reverse.findIdx? (· = c)).map (fun k => cs.length - 1 - k)

/-- The JSON extraction heuristic of `_classify_intent`:
`start = result_text.find(lbrace)`, `end = result_text.rfind(rbrace) + 1`;
the substring `result_text[start:end]` is decoded only when
`start >= 0 and end > start`. -/
def extractJsonStr (text : String) : Option String :=
  let cs := text.data
  match cs.findIdx? (· = lbrace), listRfind cs rbrace with
  | some s, some e => if e + 1 > s then some ⟨(cs.drop s).take (e + 1 - s)⟩ else none
  | _, _ => none

/-- `Orchestrator._classify_intent` as a function of the `json.loads`
capability (`loads s = none` models a raised `JSONDecodeError`), the
outcome of the LLM call (the `error` branch models any raised provider
exception, caught by the method's outer `except`), and the query.  The
session context only influences the prompt sent to the LLM, which is
already folded into the `llm` outcome, so the context argument is unused.
On a successfully decoded object the four fields are taken from the JSON
with defaults `"unknown"`, `0.5`, `["coder"]`, `""` — without any
validation; every other path returns the keyword fallback. -/
def classifyIntent (loads : String → Option JVal) (llm : Except String String)
    (query : String) (_ctx : ContextSummary) : IntentClassification :=
  match llm with
  | .error _ => fallbackClassification query
  | .ok result_text =>
    match extractJsonStr result_text with
    | none => fallbackClassification query
    | some js =>
      match loads js with
      | some (.jobj fields) =>
        { intent := jGet fields "intent" (.jstr "unknown")
          confidence := jGet fields "confidence" (.jnum q05)
          agents := jGet fields "agents" (.jarr [.jstr "coder"])
          reasoning := jGet fields "reasoning" (.jstr "") }
      | _ => fallbackClassification query

/-! ## Orchestrator (`src/core/orchestrator.py`) -/

/-- Behavior of the external collaborators and of the ambient settings for
one `process_request` run.  Every `error` branch models a raised Python
exception carrying its message (`str(e)`); `disk` is the result of
`_load_from_disk` (whose internal failures already yield `None`);
`agentExec` gives the outcome of the `i`-th sequential `agent.execute`
call. -/
structure Env where
  now : String
  recentTurnsToKeep : Nat
  summarizationThreshold : Nat
  disk : String → Option ContextSummary
  loads : String → Option JVal
  classifyLLM : Except String String
  tools : Except String Unit
  agentExec : Nat → Agent → Except String AgentResponse
  summarizeLLM : Except String String

/-- Mutable state touched by a request: the `ContextManager.sessions` dict
and the log of `_save_to_disk` events (session id and written snapshot);
the write log grows even when the best-effort disk write would fail, and
is how the development observes what was persisted. -/
structure OrchState where
  sessions : List (String × ContextSummary)
  diskWrites : List (String × ContextSummary)
deriving DecidableEq

/-- `ContextManager.get_context`: memory cache first, else the disk
snapshot, else a fresh context; a miss stores the context in the sessions
dict without writing to disk. -/
def mgrGetContext (env : Env) (st : OrchState) (sid : String) :
    ContextSummary × OrchState :=
  match dictGet st.sessions sid with
  | some c => (c, st)
  | none =>
    match env.disk sid with
    | some c => (c, { st with sessions := dictSet st.sessions sid c })
    | none =>
      let c := freshContext sid env.now
      (c, { st with sessions := dictSet st.sessions sid c })

/-- `ContextManager.update_context` at the manager level: fetch (or
create) the session context, apply the pure update, store it back and log
the synchronous disk write. -/
def mgrUpdateContext (env : Env) (st : OrchState) (sid : String)
    (user assistant : String) (agent_responses : List AgentResponse)
    (tokens_used : Int) : ContextSummary × OrchState :=
  let p := mgrGetContext env st sid
  let c2 := updateContext env.recentTurnsToKeep env.now p.1 user assistant
    agent_responses tokens_used
  (c2,
   { sessions := dictSet p.2.sessions sid c2
     diskWrites := p.2.diskWrites ++ [(sid, c2)] })

/-- `ContextManager.summarize_context` at the manager level: on LLM
success the collapsed context is stored back and written to disk; on a
raised LLM error nothing is stored or written. -/
def mgrSummarize (env : Env) (st : OrchState) (sid : String) : OrchState :=
  let p := mgrGetContext env st sid
  match env.summarizeLLM with
  | .error _ => p.2
  | .ok text =>
    let c2 := summarizeContext (.ok text) p.1
    { sessions := dictSet p.2.sessions sid c2
      diskWrites := p.2.diskWrites ++ [(sid, c2)] }

/-- Python iteration over `classification.agents` in
`[self.agent_registry.get_agent(name) for name in classification.agents]`:
a JSON array yields its elements, a string yields its one-character
substrings, an object yields its keys, and every other value raises
`TypeError`. -/
def agentNamesOfJVal : JVal → Except String (List JVal)
  | .jarr xs => .ok xs
  | .jstr s => .ok (s.data.map (fun c => .jstr ⟨[c]⟩))
  | .jobj fs => .ok (fs.map (fun kv => JVal.jstr kv.1))
  | _ => .error "TypeError: object is not iterable"

/-- `AgentRegistry.get_agent(name)` (`self.agents.get(name)`) applied to
one iterated value: a string key is looked up, hashable non-string keys
miss the string-keyed dict, and unhashable keys (lists, dicts) raise
`TypeError`. -/
def getAgentJ (reg : Registry) : JVal → Except String (Option Agent)
  | .jstr s => .ok (dictGet reg.agents s)
  | .jarr _ => .error "TypeError: unhashable type"
  | .jobj _ => .error "TypeError: unhashable type"
  | _ => .ok none

/-- Steps 2 and 3 of `process_request`: classify the intent, then map
`get_agent` over `classification.agents` and drop the `None` entries. -/
def classifyAndResolve (env : Env) (reg : Registry) (query : String)
    (ctx : ContextSummary) : Except String (List Agent) := do
  let cls := classifyIntent env.loads env.classifyLLM query ctx
  let names ← agentNamesOfJVal cls.agents
  let opts ← names.mapM (getAgentJ reg)
  return opts.filterMap id

/-- `Orchestrator._execute_agents` (with the uuid task construction left
to the agent behavior in `env.agentExec`): strictly sequential execution
in list order starting at call index `k`; each response is appended, and a
response with status `"failed"` stops the chain; a raised agent exception
aborts the comprehension and propagates. -/
def executeAgents (exec : Nat → Agent → Except String AgentResponse) :
    List Agent → Nat → Except String (List AgentResponse)
  | [], _ => .ok []
  | a :: rest, k => do
    let r ← exec k a
    if r.status = "failed" then
      return [r]
    else do
      let rs ← executeAgents exec rest (k + 1)
      return (r :: rs)

/-- Python `str.title()` on the ASCII range: an alphabetic character is
uppercased after a non-alphabetic character (or at the start) and
lowercased otherwise; non-alphabetic characters are untouched and act as
word boundaries. -/
def pyTitleAux : Bool → List Char → List Char
  | _, [] => []
  | prevAlpha, c :: cs =>
    (if c.isAlpha then (if prevAlpha then c.toLower else c.toUpper) else c)
      :: pyTitleAux c.isAlpha cs

/-- Python `s.title()` (ASCII fragment). -/
def pyTitle (s : String) : String := ⟨pyTitleAux false s.data⟩

/-- The section built for the 1-based `i`-th response in the multi-response
branch of `_aggregate_responses`:
`f"## {agent_name.title()}\n\n{resp.result}\n"` where `agent_name` is the
part of `task_id` before the first `-`, or `f"Agent {i}"` when `task_id`
has no dash. -/
def sectionTitle (i : Nat) (r : AgentResponse) : String :=
  if r.task_id.data.contains '-' then (⟨r.task_id.data.takeWhile (· ≠ '-')⟩ : String)
  else "Agent " ++ toString i

/-- The full section string for the `i`-th response. -/
def sectionOf (i : Nat) (r : AgentResponse) : String :=
  ("## " ++ pyTitle (sectionTitle i r) ++ "\n\n") ++ (r.result ++ "\n")

/-- The `enumerate(responses, 1)` loop building the section list. -/
def sectionsFrom (i : Nat) : List AgentResponse → List String
  | [] => []
  | r :: rs => sectionOf i r :: sectionsFrom (i + 1) rs

/-- `Orchestrator._aggregate_responses`: a fixed placeholder for zero
responses; for exactly one response its result, except that a falsy
(empty) result yields `"Task completed."`; for two or more responses the
titled sections joined with newlines, in execution order. -/
def aggregateResponses : List AgentResponse → String
  | [] => "No response generated."
  | [r] => if r.result = "" then "Task completed." else r.result
  | r :: q :: rest => joinNl (sectionsFrom 1 (r :: q :: rest))

/-- The canned response of step 3 when no classified agent is registered. -/
def cannotRouteMsg : String :=
  "I\x27m not sure how to handle that request. Could you please rephrase or provide more details?"

/-- The user-visible message produced by the top-level `except` clause of
`process_request` from a caught exception. -/
def pyErrMsg (e : String) : String :=
  "An error occurred while processing your request: " ++ e

/-- `Orchestrator.process_request` for a given session id: load or create
the context, classify, resolve agents (short-circuiting to the canned
message when none resolve), execute the chain, aggregate, account tokens,
update the context and maybe summarize; any exception raised along the way
is caught at this boundary and converted into `pyErrMsg`.  The returned
pair is the response string and the state as left by the run (mutations
made before a raised exception persist, as they do in Python). -/
def processRequest (env : Env) (reg : Registry) (st : OrchState)
    (query sid : String) : String × OrchState :=
  let p := mgrGetContext env st sid
  let ctx := p.1
  let st1 := p.2
  match classifyAndResolve env reg query ctx with
  | .error e => (pyErrMsg e, st1)
  | .ok agents =>
    if agents.isEmpty then (cannotRouteMsg, st1)
    else
      match env.tools with
      | .error e => (pyErrMsg e, st1)
      | .ok _ =>
        match executeAgents env.agentExec agents 0 with
        | .error e => (pyErrMsg e, st1)
        | .ok responses =>
          let final := aggregateResponses responses
          let total := (responses.map (fun r => r.tokens_used)).sum
          let q := mgrUpdateContext env st1 sid query final responses total
          let r := mgrGetContext env q.2 sid
          let st3 :=
            if shouldSummarize env.summarizationThreshold r.1 then
              mgrSummarize env r.2 sid
            else r.2
          (final, st3)

/-- The state left by the tail of a successful `process_request` run
(steps 6–9), given the pre-update context `ctx` of session `sid` already
stored in `st` and the executed responses: the turn is folded into the
context, stored back, written to disk, and the summarization trigger is
evaluated on the updated context (a description of the tail of
`processRequest`, used to state C3). -/
def afterExec (env : Env) (st : OrchState) (sid query : String)
    (ctx : ContextSummary) (responses : List AgentResponse) : OrchState :=
  let final := aggregateResponses responses
  let total := (responses.map fun r => r.tokens_used).sum
  let c2 := updateContext env.recentTurnsToKeep env.now ctx query final responses total
  let st2 : OrchState := ⟨dictSet st.sessions sid c2, st.diskWrites ++ [(sid, c2)]⟩
  if shouldSummarize env.summarizationThreshold c2 then mgrSummarize env st2 sid else st2

/-! ## Spec-side definitions and concrete instances used by the claims -/

/-- Modelled from the claim wording of C5 (refinement reference, not from
the code): exact match against the intent table first; if absent, scan the
keys for substring containment in either direction and return the first
match's agent list; if still no match, the empty list. -/
def resolveSpecClaim (reg : Registry) (intent : String) : List Agent :=
  match dictGet reg.intent_mappings intent with
  | some names => resolveNames reg names
  | none =>
    match reg.intent_mappings.find?
        (fun kv => strContains intent kv.1 || strContains kv.1 intent) with
    | some kv => resolveNames reg kv.2
    | none => []

/-- Modelled from the claim wording of C5 as amended (refinement
reference): same as `resolveSpecClaim` on the normalized intent, except
that the fallback returns the first containment match whose resolved agent
list is non-empty — matches all of whose agents are unregistered are
skipped. -/
def resolveSpecAmended (reg : Registry) (intent : String) : List Agent :=
  let n := pyStrip (pyLower intent)
  match dictGet reg.intent_mappings n with
  | some names => resolveNames reg names
  | none =>
    match reg.intent_mappings.find?
        (fun kv => (strContains n kv.1 || strContains kv.1 n)
          && !(resolveNames reg kv.2).isEmpty) with
    | some kv => resolveNames reg kv.2
    | none => []

/-- A registry refuting the stated C5 fallback semantics: the key `"ab"`
matches the intent `"abcd"` first but maps only to the unregistered agent
`"x"`, so the code skips it and returns the agents of the later matching
key `"abc"`. -/
def cexRegistry : Registry :=
  ⟨[("y", ⟨"y"⟩)], [("ab", ["x"]), ("abc", ["y"])]⟩

/-- The registry of the claim's concrete scenario: only the mapping
`"ci_cd" -> ["devops"]` (with the devops agent registered). -/
def ciRegistry : Registry :=
  ⟨[("devops", ⟨"devops"⟩)], [("ci_cd", ["devops"])]⟩

/-- An LLM response text for C2 that is a well-formed JSON object carrying
an explicitly empty agents list and an out-of-range confidence. -/
def badJson : String := "\x7b\"agents\": [], \"confidence\": 1.5\x7d"

/-- The behavior of `json.loads` on the one string probed by the C2
counterexample (which is exactly `badJson`, since the brace heuristic
extracts the whole text): Python decodes it to
`{'agents': [], 'confidence': 1.5}`. -/
def badLoads : String → Option JVal := fun s =>
  if s = badJson then some (.jobj [("agents", .jarr []), ("confidence", .jnum q15)])
  else none

/-- The string `s` contains the given chunks as pairwise disjoint
contiguous runs, in the given order (used to state that aggregation keeps
every agent result, in execution order, without deduplication). -/
inductive ContainsInOrder : List Char → List (List Char) → Prop
  | nil (s : List Char) : ContainsInOrder s []
  | cons (pre p rest : List Char) (ps : List (List Char)) :
      ContainsInOrder rest ps → ContainsInOrder (pre ++ (p ++ rest)) (p :: ps)

/-- A concrete update-call argument bundle used by the C1 witness. -/
def wTurnInput : UpdateInput := ⟨"t", "u", "a", [], 100⟩

/-- A successful agent response whose falsy (empty) result makes the
single-response aggregation branch return the placeholder instead of the
verbatim result (C9 counterexample). -/
def wEmptyResp : AgentResponse := ⟨"t1", "success", "", [], 0, []⟩

/-- A successful agent response with a non-empty result. -/
def wRespA : AgentResponse := ⟨"coder-123", "success", "did stuff", ["a"], 3, []⟩

/-- A failed agent response with a non-empty result. -/
def wRespB : AgentResponse := ⟨"qa-9", "failed", "lint errors", [], 4, []⟩

/-- A registry with no registered agents: every classified agent name is
unresolvable, so every request is unroutable (C6 witness). -/
def emptyRegistry : Registry := ⟨[], []⟩

/-- An environment for the C6 witness: the classification LLM raises, so
the fallback classifies to the coder agent, which `emptyRegistry` cannot
resolve. -/
def wEnvC6 : Env :=
  { now := "t"
    recentTurnsToKeep := 3
    summarizationThreshold := 3200
    disk := fun _ => none
    loads := fun _ => none
    classifyLLM := .error "ProviderError"
    tools := .ok ()
    agentExec := fun _ _ => .error "unused"
    summarizeLLM := .error "unused" }

/-- An orchestrator state holding one stored session (C6 witness). -/
def wStC6 : OrchState := ⟨[("sess", freshContext "sess" "t0")], []⟩

/-- An LLM classification response for the C3 witness: a JSON object
naming a three-agent chain. -/
def wC3Json : String :=
  "\x7b\"agents\": [\"coder\", \"qa_checker\", \"test_writer\"]\x7d"

/-- The behavior of `json.loads` on the one string probed by the C3
witness. -/
def wC3Loads : String → Option JVal := fun s =>
  if s = wC3Json then
    some (.jobj [("agents",
      .jarr [.jstr "coder", .jstr "qa_checker", .jstr "test_writer"])])
  else none

/-- The planned outcome of the `j`-th sequential agent call in the C3
witness: a success, then a failure, then a success that must never run. -/
def wPlan : Nat → AgentResponse := fun j =>
  if j = 0 then ⟨"t0", "success", "ok0", [], 10, []⟩
  else if j = 1 then ⟨"t1", "failed", "boom", [], 20, []⟩
  else ⟨"t2", "success", "ok2", [], 40, []⟩

/-- The resolved chain of the C3 witness. -/
def wAgentsC3 : List Agent := [⟨"coder"⟩, ⟨"qa_checker"⟩, ⟨"test_writer"⟩]

/-- The registry of the C3 witness: all three chain agents registered. -/
def wRegC3 : Registry :=
  ⟨[("coder", ⟨"coder"⟩), ("qa_checker", ⟨"qa_checker"⟩),
    ("test_writer", ⟨"test_writer"⟩)], []⟩

/-- The environment of the C3 witness. -/
def wEnvC3 : Env :=
  { now := "t"
    recentTurnsToKeep := 3
    summarizationThreshold := 3200
    disk := fun _ => none
    loads := wC3Loads
    classifyLLM := .ok wC3Json
    tools := .ok ()
    agentExec := fun j _ => .ok (wPlan j)
    summarizeLLM := .error "unused" }

/-- An orchestrator state holding one stored session (C3 witness). -/
def wStC3 : OrchState := ⟨[("sess", freshContext "sess" "t0")], []⟩

/-- A one-turn context used by the C4 witness. -/
def wSumCtx : ContextSummary :=
  ⟨"s", "old summary", [⟨"u", "a", "t1", 5⟩], [("f.py", "edited")], ["did a thing"], 7, "t0", "t1"⟩

/-- A context with one conversation turn and an 11-entry task history,
used by the C7 witness. -/
def wTrigCtx : ContextSummary :=
  ⟨"s", "", [⟨"hello", "world", "t1", 5⟩], [("f.py", "edited")],
   ["a0", "a1", "a2", "a3", "a4", "a5", "a6", "a7", "a8", "a9", "a10"], 7, "t0", "t1"⟩

/-- The same context as `wTrigCtx` except that the task-history entry
beyond the last 10 is dropped and the unread fields differ — the
summarization trigger cannot tell them apart. -/
def wTrigCtx' : ContextSummary :=
  ⟨"s2", "other", [⟨"hello", "world", "t1", 5⟩], [("f.py", "edited")],
   ["a1", "a2", "a3", "a4", "a5", "a6", "a7", "a8", "a9", "a10"], 999, "t9", "t9"⟩

/-! ## Helper lemmas -/

theorem char_toNat_ofNat (n : Nat) (h : n.isValidChar) : (Char.ofNat n).toNat = n := by
  simp [Char.ofNat, h, Char.ofNatAux, Char.toNat, UInt32.toNat, BitVec.toNat_ofNatLt]

theorem lowerChar_idem (c : Char) : lowerChar (lowerChar c) = lowerChar c := by
  unfold lowerChar
  by_cases h : 65 ≤ c.toNat ∧ c.toNat ≤ 90
  · rw [if_pos h]
    have ht : (Char.ofNat (c.toNat + 32)).toNat = c.toNat + 32 :=
      char_toNat_ofNat _ (Or.inl (by omega))
    rw [if_neg (by rw [ht]; omega)]
  · rw [if_neg h, if_neg h]

theorem isPySpace_false_of_ge (x : Char) (h : 33 ≤ x.toNat) : isPySpace x = false := by
  have h1 : x ≠ ' ' := fun he => absurd (he ▸ h) (by decide)
  have h2 : x ≠ '\t' := fun he => absurd (he ▸ h) (by decide)
  have h3 : x ≠ '\n' := fun he => absurd (he ▸ h) (by decide)
  have h4 : x ≠ '\r' := fun he => absurd (he ▸ h) (by decide)
  have h5 : x ≠ Char.ofNat 11 := fun he => absurd (he ▸ h) (by decide)
  have h6 : x ≠ Char.ofNat 12 := fun he => absurd (he ▸ h) (by decide)
  simp [isPySpace, h1, h2, h3, h4, h5, h6]

theorem isPySpace_lowerChar (c : Char) : isPySpace (lowerChar c) = isPySpace c := by
  unfold lowerChar
  by_cases h : 65 ≤ c.toNat ∧ c.toNat ≤ 90
  · rw [if_pos h]
    have ht : (Char.ofNat (c.toNat + 32)).toNat = c.toNat + 32 :=
      char_toNat_ofNat _ (Or.inl (by omega))
    rw [isPySpace_false_of_ge _ (by rw [ht]; omega), isPySpace_false_of_ge _ (by omega)]
  · rw [if_neg h]

theorem dropWhile_map_lowerChar (l : List Char) :
    (l.map lowerChar).dropWhile isPySpace = (l.dropWhile isPySpace).map lowerChar := by
  induction l with
  | nil => rfl
  | cons c t ih =>
    simp only [List.map_cons, List.dropWhile_cons, isPySpace_lowerChar c]
    by_cases h : isPySpace c
    · rw [if_pos h, if_pos h, ih]
    · rw [if_neg h, if_neg h, List.map_cons]

theorem stripList_map_lowerChar (l : List Char) :
    stripList (l.map lowerChar) = (stripList l).map lowerChar := by
  unfold stripList
  rw [dropWhile_map_lowerChar, ← List.map_reverse, dropWhile_map_lowerChar,
    ← List.map_reverse]

theorem dropWhile_head?_false (p : Char → Bool) (l : List Char) (a : Char)
    (h : (l.dropWhile p).head? = some a) : p a = false := by
  induction l with
  | nil => simp at h
  | cons c t ih =>
    by_cases hc : p c
    · rw [List.dropWhile_cons, if_pos hc] at h
      exact ih h
    · rw [List.dropWhile_cons, if_neg hc] at h
      simp at h
      subst h
      simpa using hc

theorem dropWhile_eq_self_of_head? (p : Char → Bool) (l : List Char)
    (h : ∀ a, l.head? = some a → p a = false) : l.dropWhile p = l := by
  cases l with
  | nil => rfl
  | cons c t =>
    rw [List.dropWhile_cons, if_neg]
    simp [h c rfl]

theorem dropWhile_dropWhile (p : Char → Bool) (l : List Char) :
    (l.dropWhile p).dropWhile p = l.dropWhile p :=
  dropWhile_eq_self_of_head? p _ (fun a ha => dropWhile_head?_false p l a ha)

theorem stripList_idem (l : List Char) : stripList (stripList l) = stripList l := by
  unfold stripList
  set A := l.dropWhile isPySpace with hA
  set B := (A.reverse.dropWhile isPySpace).reverse with hB
  have hpre : B <+: A := by
    have hsfx : A.reverse.dropWhile isPySpace <:+ A.reverse := List.dropWhile_suffix _
    have hBrev : B.reverse <:+ A.reverse := by
      rw [hB, List.reverse_reverse]
      exact hsfx
    exact List.reverse_suffix.mp hBrev
  have h1 : B.dropWhile isPySpace = B := by
    apply dropWhile_eq_self_of_head?
    intro a ha
    obtain ⟨r, hr⟩ := hpre
    have hAh : A.head? = some a := by
      rw [← hr]
      cases hc : B with
      | nil => rw [hc] at ha; simp at ha
      | cons b bs =>
        rw [hc] at ha
        simp at ha
        simp [ha]
    exact dropWhile_head?_false isPySpace l a (hA ▸ hAh)
  have h2 : B.reverse.dropWhile isPySpace = B.reverse := by
    rw [hB, List.reverse_reverse]
    exact dropWhile_dropWhile _ _
  rw [h1, h2, List.reverse_reverse]

theorem map_lowerChar_idem (l : List Char) :
    (l.map lowerChar).map lowerChar = l.map lowerChar := by
  rw [List.map_map]
  exact List.map_congr_left (fun c _ => lowerChar_idem c)

theorem normIntent_idem (s : String) :
    pyStrip (pyLower (pyStrip (pyLower s))) = pyStrip (pyLower s) := by
  unfold pyStrip pyLower
  congr 1
  show stripList ((stripList (s.data.map lowerChar)).map lowerChar) = _
  rw [← stripList_map_lowerChar, map_lowerChar_idem, stripList_idem]

/-! ## Claims C10, C5 -/

/-- C10: for every intent string `s` and every registry state,
`get_agents_for_intent s` equals `get_agents_for_intent (s.lower().strip())`
— resolution is invariant under letter case and surrounding whitespace of
the intent, because the intent is lowercased and stripped before both the
exact-match and the substring-fallback lookups. -/
theorem intent_lookup_normalization_invariant (reg : Registry) (s : String) :
    getAgentsForIntent reg s = getAgentsForIntent reg (pyStrip (pyLower s)) := by
  unfold getAgentsForIntent
  rw [normIntent_idem]

theorem fallbackScan_eq_find (reg : Registry) (intent : String)
    (ms : List (String × List String)) :
    fallbackScan reg intent ms =
      (match ms.find? (fun kv => (strContains intent kv.1 || strContains kv.1 intent)
          && !(resolveNames reg kv.2).isEmpty) with
       | some kv => resolveNames reg kv.2
       | none => []) := by
  induction ms with
  | nil => rfl
  | cons kv rest ih =>
    by_cases hc : (strContains intent kv.1 || strContains kv.1 intent) = true
    · by_cases he : (resolveNames reg kv.2).isEmpty = true
      · rw [List.find?_cons_of_neg _ (by simp [hc, he])]
        simp only [fallbackScan, hc, if_true]
        rw [if_pos he]
        exact ih
      · rw [List.find?_cons_of_pos _ (by simp [hc, he])]
        simp only [fallbackScan, hc, if_true]
        rw [if_neg he]
    · rw [List.find?_cons_of_neg _ (by simp [hc])]
      simp only [fallbackScan, hc, if_false]
      exact ih

/-- C5 counterexample: the claim's fallback reading — return the first
substring match's agent list — disagrees with the code on a registry
whose first matching key resolves to no registered agents: the code skips
it and returns the later match's agents. -/
theorem resolve_first_match_counterexample :
    getAgentsForIntent cexRegistry "abcd" = [⟨"y"⟩]
      ∧ resolveSpecClaim cexRegistry "abcd" = [] := by
  constructor <;> decide

/-- C5 (amended): resolution normalizes the intent, tries the exact match
first (returned even when it resolves to an empty list), and otherwise
returns the first substring-containment match whose resolved agent list is
non-empty, else the empty list; and in the claim's concrete scenario — a
registry whose only mapping is `"ci_cd" -> ["devops"]` — resolving
`"cicd_pipeline"` yields the empty list. -/
theorem resolve_semantics_amended :
    (∀ (reg : Registry) (intent : String),
        getAgentsForIntent reg intent = resolveSpecAmended reg intent)
    ∧ getAgentsForIntent ciRegistry "cicd_pipeline" = [] := by
  constructor
  · intro reg intent
    cases h : dictGet reg.intent_mappings (pyStrip (pyLower intent)) with
    | some names =>
      simp only [getAgentsForIntent, resolveIntentTable, resolveSpecAmended, h]
    | none =>
      simp only [getAgentsForIntent, resolveIntentTable, resolveSpecAmended, h]
      exact fallbackScan_eq_find reg (pyStrip (pyLower intent)) reg.intent_mappings
  · decide

theorem updateContext_turns_length (K : Nat) (hK : 1 ≤ K) (now : String)
    (c : ContextSummary) (u a : String) (rs : List AgentResponse) (t : Int) :
    (updateContext K now c u a rs t).recent_turns.length
      = min (c.recent_turns.length + 1) K := by
  simp only [updateContext, pySliceLast]
  split
  next h =>
    rw [if_pos (by omega : 0 < K)]
    simp only [List.length_append, List.length_cons, List.length_nil, List.length_drop] at h ⊢
    omega
  next h =>
    simp only [List.length_append, List.length_cons, List.length_nil] at h ⊢
    omega

theorem applyUpdates_turns_length (K : Nat) (hK : 1 ≤ K) (inputs : List UpdateInput) :
    ∀ c : ContextSummary, c.recent_turns.length ≤ K →
      (applyUpdates K inputs c).recent_turns.length
        = min (c.recent_turns.length + inputs.length) K := by
  induction inputs with
  | nil =>
    intro c hc
    simp only [applyUpdates, List.foldl_nil, List.length_nil]
    omega
  | cons inp rest ih =>
    intro c hc
    have hstep := updateContext_turns_length K hK inp.now c inp.user inp.assistant
      inp.agent_responses inp.tokens_used
    have hfold : applyUpdates K (inp :: rest) c
        = applyUpdates K rest (updateContext K inp.now c inp.user inp.assistant
            inp.agent_responses inp.tokens_used) := by
      simp [applyUpdates]
    rw [hfold, ih _ (by rw [hstep]; omega), hstep]
    simp only [List.length_cons]
    omega

/-- C1: for every session and every sequence of N `update_context` calls
with no intervening summarization (starting from a fresh session context),
`len(recent_turns) = min(N, K)` afterwards, where `K` is
`settings.recent_turns_to_keep` (a positive count, 3 by default); and
after any single `update_context` call on any context whatsoever,
`len(recent_turns) <= K` holds. -/
theorem turn_window_invariant (K : Nat) (hK : 1 ≤ K) :
    (∀ (sid now : String) (inputs : List UpdateInput),
        (applyUpdates K inputs (freshContext sid now)).recent_turns.length
          = min inputs.length K)
    ∧ (∀ (c : ContextSummary) (now user assistant : String)
        (rs : List AgentResponse) (t : Int),
        (updateContext K now c user assistant rs t).recent_turns.length ≤ K) := by
  constructor
  · intro sid now inputs
    have h := applyUpdates_turns_length K hK inputs (freshContext sid now)
      (by simp [freshContext])
    simpa [freshContext] using h
  · intro c now u a rs t
    rw [updateContext_turns_length K hK]
    omega

/-- C1 witness: with the default `K = 3` and five successive updates of a
fresh session, exactly `min 5 3 = 3` turns remain; a single update of a
bloated ad-hoc context also stays within the bound. -/
theorem turn_window_invariant_witness :
    1 ≤ 3
    ∧ (applyUpdates 3 [wTurnInput, wTurnInput, wTurnInput, wTurnInput, wTurnInput]
        (freshContext "s" "t0")).recent_turns.length = min 5 3
    ∧ (updateContext 3 "t" (freshContext "s" "t0") "u" "a" [] 7).recent_turns.length ≤ 3 := by
  refine ⟨by decide, ?_, ?_⟩
  · exact (turn_window_invariant 3 (by decide)).1 "s" "t0" _
  · exact (turn_window_invariant 3 (by decide)).2 (freshContext "s" "t0") "t" "u" "a" [] 7

theorem collapse_to_last (l : List ConversationTurn) :
    (match l with
     | [] => ([] : List ConversationTurn)
     | t :: ts => [(t :: ts).getLast (by simp)]) = l.getLast?.toList := by
  cases l with
  | nil => rfl
  | cons t ts =>
    rw [List.getLast?_eq_getLast (t :: ts) (by simp)]
    rfl

/-- C4: `summarize_context` either (on LLM success) replaces
`conversation_summary` by the newly generated text (never appends) and
collapses a non-empty `recent_turns` to exactly the single most recent
turn (an empty one stays empty), leaving every other field untouched, or
(on any raised LLM-call failure) leaves the context completely unchanged;
the code makes a single attempt with no retry. -/
theorem summarize_success_failure_dichotomy (c : ContextSummary)
    (llm : Except String String) :
    (∀ e, llm = .error e → summarizeContext llm c = c)
    ∧ (∀ text, llm = .ok text →
        (summarizeContext llm c).conversation_summary = text
        ∧ (∀ h : c.recent_turns ≠ [],
            (summarizeContext llm c).recent_turns = [c.recent_turns.getLast h])
        ∧ (c.recent_turns = [] → (summarizeContext llm c).recent_turns = [])
        ∧ (summarizeContext llm c).session_id = c.session_id
        ∧ (summarizeContext llm c).active_files = c.active_files
        ∧ (summarizeContext llm c).task_history = c.task_history
        ∧ (summarizeContext llm c).total_tokens_used = c.total_tokens_used
        ∧ (summarizeContext llm c).created_at = c.created_at
        ∧ (summarizeContext llm c).updated_at = c.updated_at) := by
  constructor
  · rintro e rfl
    rfl
  · rintro text rfl
    refine ⟨rfl, ?_, ?_, rfl, rfl, rfl, rfl, rfl, rfl⟩
    · intro h
      have h1 : (summarizeContext (Except.ok text) c).recent_turns
          = c.recent_turns.getLast?.toList := collapse_to_last c.recent_turns
      rw [h1, List.getLast?_eq_getLast c.recent_turns h]
      rfl
    · intro h
      simp [summarizeContext, h]

/-- C4 witness: on a concrete one-turn context, a successful call installs
the generated summary and keeps only the most recent turn, while a raised
provider error leaves the context unchanged. -/
theorem summarize_dichotomy_witness :
    (summarizeContext (Except.ok "S") wSumCtx).conversation_summary = "S"
    ∧ (summarizeContext (Except.ok "S") wSumCtx).recent_turns
        = [wSumCtx.recent_turns.getLast (by simp [wSumCtx])]
    ∧ summarizeContext (Except.error "boom") wSumCtx = wSumCtx := by
  refine ⟨?_, ?_, ?_⟩
  · exact ((summarize_success_failure_dichotomy wSumCtx (.ok "S")).2 "S" rfl).1
  · exact ((summarize_success_failure_dichotomy wSumCtx (.ok "S")).2 "S" rfl).2.1
      (by simp [wSumCtx])
  · exact (summarize_success_failure_dichotomy wSumCtx (.error "boom")).1 "boom" rfl

theorem pySliceLast10_isEmpty_eq (l l' : List String)
    (h : pySliceLast 10 l = pySliceLast 10 l') : l.isEmpty = l'.isEmpty := by
  have h1 := congrArg List.length h
  simp only [pySliceLast, if_pos (by omega : 0 < 10), List.length_drop] at h1
  rcases l with _ | ⟨x, xs⟩ <;> rcases l' with _ | ⟨y, ys⟩ <;> simp_all <;> omega

/-- C7: `should_summarize` returns `True` iff the length of the serialized
block built from all recent turns, all active files and only the last 10
task-history entries, integer-divided by 4, strictly exceeds the threshold
`int(max_context_tokens * summarization_threshold)` (3200 with the default
settings); in particular two contexts agreeing on the turns, the files and
the last 10 history entries trigger identically, regardless of the rest of
the history. -/
theorem summarization_trigger_formula (th : Nat) (c : ContextSummary) :
    (shouldSummarize th c = true ↔ (buildFullContext c).length / 4 > th)
    ∧ (∀ c' : ContextSummary,
        c'.recent_turns = c.recent_turns →
        c'.active_files = c.active_files →
        pySliceLast 10 c'.task_history = pySliceLast 10 c.task_history →
        shouldSummarize th c' = shouldSummarize th c) := by
  constructor
  · simp [shouldSummarize, estimateContextTokens]
  · intro c' h1 h2 h3
    have hb : buildFullContext c' = buildFullContext c := by
      have he : c'.task_history.isEmpty = c.task_history.isEmpty :=
        pySliceLast10_isEmpty_eq _ _ h3
      simp only [buildFullContext]
      rw [h1, h2, h3, he]
    simp [shouldSummarize, estimateContextTokens, hb]

/-- C7 witness: the formula read off a concrete context, and trigger
agreement between two concrete contexts differing only in history entries
beyond the last 10 and in fields the estimate does not read. -/
theorem summarization_trigger_formula_witness :
    (shouldSummarize 3200 wTrigCtx = true ↔ (buildFullContext wTrigCtx).length / 4 > 3200)
    ∧ shouldSummarize 3200 wTrigCtx' = shouldSummarize 3200 wTrigCtx := by
  refine ⟨(summarization_trigger_formula 3200 wTrigCtx).1, ?_⟩
  exact (summarization_trigger_formula 3200 wTrigCtx).2 wTrigCtx' (by decide) (by decide)
    (by decide)

/-- C2 counterexample: when the LLM answers with the well-formed JSON
object `{"agents": [], "confidence": 1.5}`, the parse path stores the
fields unvalidated — the returned classification has an empty agents list
and an out-of-range confidence, refuting the claim's universal guarantee
over every LLM outcome. -/
theorem classifier_validation_counterexample :
    agentsNonempty (classifyIntent badLoads (Except.ok badJson) "write code"
        (freshContext "s" "t")) = false
    ∧ confidenceInRange (classifyIntent badLoads (Except.ok badJson) "write code"
        (freshContext "s" "t")) = false := by
  constructor <;> decide

/-- C2 (amended): the fallback path is total and valid — for every query
the keyword fallback yields a non-empty agents list (defaulting to the
coder agent) and a confidence in [0,1] — and classification returns
exactly that fallback whenever the LLM call raises, whenever no JSON can
be extracted from the response, and whenever decoding the extracted
substring fails; only a successfully decoded JSON object bypasses the
fallback, and then the fields are taken from the JSON unvalidated. -/
theorem classifier_fallback_totality :
    (∀ q : String, agentsNonempty (fallbackClassification q) = true
        ∧ confidenceInRange (fallbackClassification q) = true)
    ∧ (∀ (loads : String → Option JVal) (e q : String) (ctx : ContextSummary),
        classifyIntent loads (Except.error e) q ctx = fallbackClassification q)
    ∧ (∀ (loads : String → Option JVal) (t q : String) (ctx : ContextSummary),
        extractJsonStr t = none →
        classifyIntent loads (Except.ok t) q ctx = fallbackClassification q)
    ∧ (∀ (loads : String → Option JVal) (t js q : String) (ctx : ContextSummary),
        extractJsonStr t = some js → loads js = none →
        classifyIntent loads (Except.ok t) q ctx = fallbackClassification q) := by
  refine ⟨?_, ?_, ?_, ?_⟩
  · intro q
    unfold fallbackClassification
    dsimp only
    split_ifs <;> exact ⟨rfl, by decide⟩
  · intro loads e q ctx
    rfl
  · intro loads t q ctx h
    simp [classifyIntent, h]
  · intro loads t js q ctx h1 h2
    simp [classifyIntent, h1, h2]

/-- C2 witness: a forced provider error and an extraction miss both land
on the fallback, whose classification is valid. -/
theorem classifier_fallback_totality_witness :
    classifyIntent badLoads (Except.error "ProviderError") "fix the build"
        (freshContext "s" "t") = fallbackClassification "fix the build"
    ∧ agentsNonempty (fallbackClassification "fix the build") = true
    ∧ confidenceInRange (fallbackClassification "fix the build") = true
    ∧ classifyIntent badLoads (Except.ok "no json here") "q" (freshContext "s" "t")
        = fallbackClassification "q" := by
  refine ⟨?_, ?_, ?_, ?_⟩
  · exact classifier_fallback_totality.2.1 badLoads "ProviderError" "fix the build" _
  · exact (classifier_fallback_totality.1 "fix the build").1
  · exact (classifier_fallback_totality.1 "fix the build").2
  · exact classifier_fallback_totality.2.2.1 badLoads "no json here" "q" _ (by decide)

theorem str_data_append (a b : String) : (a ++ b).data = a.data ++ b.data := rfl

theorem containsInOrder_prepend (junk : List Char) (s : List Char)
    (ps : List (List Char)) (h : ContainsInOrder s ps) :
    ContainsInOrder (junk ++ s) ps := by
  cases h with
  | nil => exact .nil _
  | cons pre p rest ps h' =>
    rw [← List.append_assoc]
    exact .cons (junk ++ pre) p rest ps h'

theorem containsInOrder_joinNl_sections (rs : List AgentResponse) (i : Nat) :
    ContainsInOrder (joinNl (sectionsFrom i rs)).data
      (rs.map (fun r => r.result.data)) := by
  induction rs generalizing i with
  | nil => exact .nil _
  | cons r rest ih =>
    cases rest with
    | nil =>
      rw [show (joinNl (sectionsFrom i [r])).data
          = ("## " ++ pyTitle (sectionTitle i r) ++ "\n\n").data
            ++ (r.result.data ++ ['\n']) from rfl]
      exact .cons _ _ _ _ (.nil _)
    | cons r2 rest2 =>
      have hgd : (joinNl (sectionsFrom i (r :: r2 :: rest2))).data
          = ("## " ++ pyTitle (sectionTitle i r) ++ "\n\n").data
            ++ (r.result.data
              ++ (['\n', '\n'] ++ (joinNl (sectionsFrom (i + 1) (r2 :: rest2))).data)) := by
        rw [show joinNl (sectionsFrom i (r :: r2 :: rest2))
            = sectionOf i r ++ "\n" ++ joinNl (sectionsFrom (i + 1) (r2 :: rest2)) from rfl]
        simp only [sectionOf, str_data_append, List.append_assoc]
        rfl
      rw [List.map_cons, hgd]
      exact .cons _ _ _ _ (containsInOrder_prepend ['\n', '\n'] _ _ (ih (i + 1)))

/-- C9 counterexample: a single response whose result is the empty (falsy)
string is not returned verbatim — the code substitutes the fixed string
`"Task completed."`. -/
theorem aggregate_single_empty_counterexample :
    aggregateResponses [wEmptyResp] = "Task completed."
    ∧ wEmptyResp.result = ""
    ∧ aggregateResponses [wEmptyResp] ≠ wEmptyResp.result := by
  exact ⟨rfl, rfl, by decide⟩

/-- C9 (amended): with zero responses aggregation returns the fixed
placeholder; with exactly one response it returns the result verbatim when
the result is truthy (non-empty) and the fixed string `"Task completed."`
when it is falsy; with two or more responses it returns the titled
sections joined with newlines, and the output contains every response's
result as disjoint runs in execution order — never reordered or
deduplicated. -/
theorem aggregation_shape_amended :
    aggregateResponses [] = "No response generated."
    ∧ (∀ r : AgentResponse, r.result ≠ "" → aggregateResponses [r] = r.result)
    ∧ (∀ r : AgentResponse, r.result = "" → aggregateResponses [r] = "Task completed.")
    ∧ (∀ rs : List AgentResponse, 2 ≤ rs.length →
        aggregateResponses rs = joinNl (sectionsFrom 1 rs)
        ∧ ContainsInOrder (aggregateResponses rs).data
            (rs.map (fun r => r.result.data))) := by
  refine ⟨rfl, ?_, ?_, ?_⟩
  · intro r h
    simp [aggregateResponses, h]
  · intro r h
    simp [aggregateResponses, h]
  · intro rs h
    match rs, h with
    | r1 :: r2 :: rest, _ =>
      exact ⟨rfl, containsInOrder_joinNl_sections (r1 :: r2 :: rest) 1⟩

/-- C9 witness: concrete instances of the three populated branches. -/
theorem aggregation_shape_amended_witness :
    aggregateResponses [wRespA] = wRespA.result
    ∧ aggregateResponses [wEmptyResp] = "Task completed."
    ∧ aggregateResponses [wRespA, wRespB] = joinNl (sectionsFrom 1 [wRespA, wRespB])
    ∧ ContainsInOrder (aggregateResponses [wRespA, wRespB]).data
        [wRespA.result.data, wRespB.result.data] := by
  refine ⟨?_, ?_, ?_, ?_⟩
  · exact aggregation_shape_amended.2.1 wRespA (by decide)
  · exact aggregation_shape_amended.2.2.1 wEmptyResp rfl
  · exact (aggregation_shape_amended.2.2.2 [wRespA, wRespB] (by decide)).1
  · exact (aggregation_shape_amended.2.2.2 [wRespA, wRespB] (by decide)).2

theorem dictGet_dictSet_self (l : List (String × α)) (k : String) (v : α) :
    dictGet (dictSet l k v) k = some v := by
  induction l with
  | nil => simp [dictSet, dictGet]
  | cons kv rest ih =>
    by_cases h : kv.1 = k
    · simp [dictSet, h, dictGet]
    · simp [dictSet, h, dictGet, ih]

theorem dictGet_dictSet_ne (l : List (String × α)) (k k' : String) (v : α)
    (h : k' ≠ k) : dictGet (dictSet l k v) k' = dictGet l k' := by
  have hne : k ≠ k' := fun he => h he.symm
  induction l with
  | nil =>
    simp only [dictSet, dictGet]
    rw [if_neg hne]
  | cons kv rest ih =>
    rcases kv with ⟨k0, v0⟩
    by_cases hk : k0 = k
    · subst hk
      simp only [dictSet, if_pos rfl, dictGet]
      rw [if_neg hne, if_neg hne]
    · simp only [dictSet, if_neg hk, dictGet]
      by_cases hk' : k0 = k'
      · rw [if_pos hk', if_pos hk']
      · rw [if_neg hk', if_neg hk']
        exact ih

theorem mgrGetContext_diskWrites (env : Env) (st : OrchState) (sid : String) :
    (mgrGetContext env st sid).2.diskWrites = st.diskWrites := by
  unfold mgrGetContext
  cases dictGet st.sessions sid with
  | some c => rfl
  | none =>
    cases env.disk sid with
    | some c => rfl
    | none => rfl

theorem mgrGetContext_sessions_mono (env : Env) (st : OrchState) (sid : String)
    (s : String) (c : ContextSummary) (h : dictGet st.sessions s = some c) :
    dictGet (mgrGetContext env st sid).2.sessions s = some c := by
  unfold mgrGetContext
  by_cases hs : s = sid
  · subst hs
    rw [h]
    exact h
  · cases hsid : dictGet st.sessions sid with
    | some c' => exact h
    | none =>
      cases env.disk sid with
      | some c' => simpa [dictGet_dictSet_ne _ _ _ _ hs] using h
      | none => simpa [dictGet_dictSet_ne _ _ _ _ hs] using h

/-- C8: for every behavior of the collaborators — the classification LLM,
`json.loads`, the tools manager, the agents and the summarizer, any of
which may raise — `process_request` returns a string: either the canned
cannot-route message, or an aggregation of the executed responses, or the
top-level catch's readable error message.  No exception propagates. -/
theorem process_request_totality (env : Env) (reg : Registry) (st : OrchState)
    (query sid : String) :
    (processRequest env reg st query sid).1 = cannotRouteMsg
    ∨ (∃ rs : List AgentResponse,
        (processRequest env reg st query sid).1 = aggregateResponses rs)
    ∨ (∃ e : String, (processRequest env reg st query sid).1 = pyErrMsg e) := by
  unfold processRequest
  dsimp only
  cases h1 : classifyAndResolve env reg query (mgrGetContext env st sid).1 with
  | error e =>
    right; right
    exact ⟨e, rfl⟩
  | ok agents =>
    dsimp only
    by_cases h2 : agents.isEmpty = true
    · rw [if_pos h2]
      left; rfl
    · rw [if_neg h2]
      cases h3 : env.tools with
      | error e =>
        right; right
        exact ⟨e, rfl⟩
      | ok u =>
        cases h4 : executeAgents env.agentExec agents 0 with
        | error e =>
          right; right
          exact ⟨e, rfl⟩
        | ok responses =>
          right; left
          exact ⟨responses, rfl⟩

/-- C6: when the classified agents resolve to the empty list, the request
short-circuits to the canned cannot-route response; no disk write is
logged, and every stored session context — in particular the current one —
keeps exactly its prior value. -/
theorem unroutable_request_frame (env : Env) (reg : Registry) (st : OrchState)
    (query sid : String)
    (h : classifyAndResolve env reg query (mgrGetContext env st sid).1 = .ok []) :
    (processRequest env reg st query sid).1 = cannotRouteMsg
    ∧ (processRequest env reg st query sid).2.diskWrites = st.diskWrites
    ∧ (∀ (s : String) (c : ContextSummary), dictGet st.sessions s = some c →
        dictGet (processRequest env reg st query sid).2.sessions s = some c) := by
  unfold processRequest
  dsimp only
  rw [h]
  refine ⟨rfl, mgrGetContext_diskWrites env st sid, ?_⟩
  intro s c hc
  exact mgrGetContext_sessions_mono env st sid s c hc

/-- C6 witness: a concrete unroutable request against a concrete stored
state returns the canned message and leaves the stored session untouched,
with no disk write. -/
theorem unroutable_request_frame_witness :
    (processRequest wEnvC6 emptyRegistry wStC6 "hello" "sess").1 = cannotRouteMsg
    ∧ (processRequest wEnvC6 emptyRegistry wStC6 "hello" "sess").2.diskWrites
        = wStC6.diskWrites
    ∧ dictGet (processRequest wEnvC6 emptyRegistry wStC6 "hello" "sess").2.sessions "sess"
        = some (freshContext "sess" "t0") := by
  have h : classifyAndResolve wEnvC6 emptyRegistry "hello"
      (mgrGetContext wEnvC6 wStC6 "sess").1 = .ok [] := by rfl
  refine ⟨(unroutable_request_frame wEnvC6 emptyRegistry wStC6 "hello" "sess" h).1,
    (unroutable_request_frame wEnvC6 emptyRegistry wStC6 "hello" "sess" h).2.1,
    (unroutable_request_frame wEnvC6 emptyRegistry wStC6 "hello" "sess" h).2.2 "sess"
      (freshContext "sess" "t0") (by decide)⟩

theorem executeAgents_first_failure
    (exec : Nat → Agent → Except String AgentResponse) (R : Nat → AgentResponse) :
    ∀ (A : List Agent) (k i : Nat), i < A.length →
      (∀ j (hj : j < A.length), j ≤ i → exec (k + j) (A.get ⟨j, hj⟩) = .ok (R (k + j))) →
      (∀ j, j < i → (R (k + j)).status ≠ "failed") →
      (R (k + i)).status = "failed" →
      executeAgents exec A k = .ok ((List.range (i + 1)).map (fun j => R (k + j))) := by
  intro A
  induction A with
  | nil =>
    intro k i hi
    simp at hi
  | cons a rest ih =>
    intro k i hi hexec hok hfail
    cases i with
    | zero =>
      have h0 := hexec 0 (by simp) (le_refl 0)
      simp only [List.get] at h0
      simp only [executeAgents, h0, Nat.add_zero] at *
      simp only [Bind.bind, Except.bind]
      rw [if_pos hfail]
      simp [List.range_succ, Pure.pure, Except.pure]
    | succ n =>
      have h0 := hexec 0 (by simp) (by omega)
      simp only [List.get] at h0
      have hne : ¬((R (k + 0)).status = "failed") := hok 0 (by omega)
      have hrest : executeAgents exec rest (k + 1)
          = .ok ((List.range (n + 1)).map (fun j => R (k + 1 + j))) := by
        apply ih (k + 1) n (by simpa using hi)
        · intro j hj hji
          have he : k + (j + 1) = k + 1 + j := by omega
          have := hexec (j + 1) (by simpa using Nat.succ_lt_succ hj) (by omega)
          rw [List.get_cons_succ, he] at this
          exact this
        · intro j hji
          have he : k + (j + 1) = k + 1 + j := by omega
          have := hok (j + 1) (by omega)
          rwa [he] at this
        · have he : k + (n + 1) = k + 1 + n := by omega
          rwa [he] at hfail
      simp only [executeAgents, h0, Nat.add_zero] at *
      simp only [Bind.bind, Except.bind]
      have hmaps : R k :: (List.range (n + 1)).map (fun j => R (k + 1 + j))
          = (List.range (n + 1 + 1)).map (fun j => R (k + j)) := by
        have h1 : List.range (n + 1 + 1) = 0 :: (List.range (n + 1)).map Nat.succ :=
          List.range_succ_eq_map (n + 1)
        rw [h1, List.map_cons, List.map_map]
        refine congrArg₂ List.cons ?_ ?_
        · simp
        · refine List.map_congr_left ?_
          intro j _
          simp only [Function.comp_apply]
          congr 1
          omega
      rw [if_neg hne, hrest]
      simp only [Pure.pure, Except.pure]
      rw [hmaps]

theorem mgrSummarize_lookup (env : Env) (st2 : OrchState) (sid : String)
    (c1 : ContextSummary) (h : dictGet st2.sessions sid = some c1) :
    ∃ cf : ContextSummary,
      dictGet (mgrSummarize env st2 sid).sessions sid = some cf
      ∧ cf.total_tokens_used = c1.total_tokens_used := by
  have hg : mgrGetContext env st2 sid = (c1, st2) := by
    unfold mgrGetContext
    rw [h]
  unfold mgrSummarize
  rw [hg]
  dsimp only
  cases hs : env.summarizeLLM with
  | error e => exact ⟨c1, h, rfl⟩
  | ok text =>
    refine ⟨summarizeContext (.ok text) c1, ?_, rfl⟩
    exact dictGet_dictSet_self _ _ _

theorem afterExec_total_tokens (env : Env) (st : OrchState) (sid query : String)
    (ctx : ContextSummary) (responses : List AgentResponse) :
    ∃ cf : ContextSummary,
      dictGet (afterExec env st sid query ctx responses).sessions sid = some cf
      ∧ cf.total_tokens_used
          = ctx.total_tokens_used + (responses.map fun r => r.tokens_used).sum := by
  unfold afterExec
  dsimp only
  by_cases hs : shouldSummarize env.summarizationThreshold
      (updateContext env.recentTurnsToKeep env.now ctx query
        (aggregateResponses responses) responses
        ((responses.map fun r => r.tokens_used).sum)) = true
  · rw [if_pos hs]
    obtain ⟨cf, h1, h2⟩ := mgrSummarize_lookup env
      ⟨dictSet st.sessions sid (updateContext env.recentTurnsToKeep env.now ctx query
          (aggregateResponses responses) responses
          ((responses.map fun r => r.tokens_used).sum)),
        st.diskWrites ++ [(sid, updateContext env.recentTurnsToKeep env.now ctx query
          (aggregateResponses responses) responses
          ((responses.map fun r => r.tokens_used).sum))]⟩ sid
      (updateContext env.recentTurnsToKeep env.now ctx query
        (aggregateResponses responses) responses
        ((responses.map fun r => r.tokens_used).sum))
      (dictGet_dictSet_self _ _ _)
    exact ⟨cf, h1, by rw [h2]; rfl⟩
  · rw [if_neg hs]
    exact ⟨_, dictGet_dictSet_self _ _ _, rfl⟩

theorem processRequest_exec_eq (env : Env) (reg : Registry) (st : OrchState)
    (query sid : String) (ctx : ContextSummary) (A : List Agent)
    (responses : List AgentResponse)
    (hctx : dictGet st.sessions sid = some ctx)
    (hA : classifyAndResolve env reg query ctx = .ok A)
    (hAne : A.isEmpty = false)
    (htools : env.tools = .ok ())
    (hexec : executeAgents env.agentExec A 0 = .ok responses) :
    processRequest env reg st query sid
      = (aggregateResponses responses, afterExec env st sid query ctx responses) := by
  have hg : mgrGetContext env st sid = (ctx, st) := by
    unfold mgrGetContext
    rw [hctx]
  have hu : mgrUpdateContext env st sid query (aggregateResponses responses) responses
      ((responses.map fun r => r.tokens_used).sum)
      = (updateContext env.recentTurnsToKeep env.now ctx query
          (aggregateResponses responses) responses
          ((responses.map fun r => r.tokens_used).sum),
         ⟨dictSet st.sessions sid (updateContext env.recentTurnsToKeep env.now ctx query
            (aggregateResponses responses) responses
            ((responses.map fun r => r.tokens_used).sum)),
          st.diskWrites ++ [(sid, updateContext env.recentTurnsToKeep env.now ctx query
            (aggregateResponses responses) responses
            ((responses.map fun r => r.tokens_used).sum))]⟩) := by
    unfold mgrUpdateContext
    rw [hg]
  unfold processRequest
  rw [hg]
  dsimp only
  rw [hA]
  dsimp only
  rw [if_neg (by simp [hAne]), htools, hexec]
  dsimp only
  rw [hu]
  dsimp only
  rw [show mgrGetContext env
      ⟨dictSet st.sessions sid (updateContext env.recentTurnsToKeep env.now ctx query
          (aggregateResponses responses) responses
          ((responses.map fun r => r.tokens_used).sum)),
        st.diskWrites ++ [(sid, updateContext env.recentTurnsToKeep env.now ctx query
          (aggregateResponses responses) responses
          ((responses.map fun r => r.tokens_used).sum))]⟩ sid
      = (updateContext env.recentTurnsToKeep env.now ctx query
          (aggregateResponses responses) responses
          ((responses.map fun r => r.tokens_used).sum),
         ⟨dictSet st.sessions sid (updateContext env.recentTurnsToKeep env.now ctx query
            (aggregateResponses responses) responses
            ((responses.map fun r => r.tokens_used).sum)),
          st.diskWrites ++ [(sid, updateContext env.recentTurnsToKeep env.now ctx query
            (aggregateResponses responses) responses
            ((responses.map fun r => r.tokens_used).sum))]⟩)
    from by unfold mgrGetContext; rw [dictGet_dictSet_self]]
  rfl

/-- C3: when the resolved chain is executed sequentially and the agent at
(0-based) position `i` is the first to report status `"failed"`, no later
agent runs: the executed responses are exactly the first `i + 1` planned
ones (`i` successes plus the failure), the returned text aggregates all of
them, and the session's stored `total_tokens_used` grows by exactly the
sum of all executed agents' reported tokens. -/
theorem partial_failure_accounting (env : Env) (reg : Registry) (st : OrchState)
    (query sid : String) (ctx : ContextSummary) (A : List Agent)
    (R : Nat → AgentResponse) (i : Nat)
    (hctx : dictGet st.sessions sid = some ctx)
    (hA : classifyAndResolve env reg query ctx = .ok A)
    (htools : env.tools = .ok ())
    (hi : i < A.length)
    (hexec : ∀ j (hj : j < A.length), j ≤ i → env.agentExec j (A.get ⟨j, hj⟩) = .ok (R j))
    (hok : ∀ j, j < i → (R j).status ≠ "failed")
    (hfail : (R i).status = "failed") :
    executeAgents env.agentExec A 0 = .ok ((List.range (i + 1)).map R)
    ∧ ((List.range (i + 1)).map R).length = i + 1
    ∧ (processRequest env reg st query sid).1
        = aggregateResponses ((List.range (i + 1)).map R)
    ∧ (∃ cf : ContextSummary,
        dictGet (processRequest env reg st query sid).2.sessions sid = some cf
        ∧ cf.total_tokens_used
            = ctx.total_tokens_used
              + (((List.range (i + 1)).map R).map (fun r => r.tokens_used)).sum) := by
  have hAne : A.isEmpty = false := by
    cases A with
    | nil => simp at hi
    | cons a r => rfl
  have hex : executeAgents env.agentExec A 0 = .ok ((List.range (i + 1)).map R) := by
    have h := executeAgents_first_failure env.agentExec R A 0 i hi
      (fun j hj hji => by rw [Nat.zero_add]; exact hexec j hj hji)
      (fun j hji => by rw [Nat.zero_add]; exact hok j hji)
      (by rw [Nat.zero_add]; exact hfail)
    have h2 : ((List.range (i + 1)).map (fun j => R (0 + j)))
        = (List.range (i + 1)).map R :=
      List.map_congr_left (fun j _ => by rw [Nat.zero_add])
    rw [h2] at h
    exact h
  have hpr := processRequest_exec_eq env reg st query sid ctx A
    ((List.range (i + 1)).map R) hctx hA hAne htools hex
  refine ⟨hex, by simp, by rw [hpr], ?_⟩
  rw [hpr]
  exact afterExec_total_tokens env st sid query ctx _

/-- C3 witness: a concrete three-agent chain whose second agent fails
executes exactly two agents, aggregates both responses, and adds exactly
their 10 + 20 tokens to the stored session total. -/
theorem partial_failure_accounting_witness :
    executeAgents wEnvC3.agentExec wAgentsC3 0 = .ok ((List.range 2).map wPlan)
    ∧ ((List.range 2).map wPlan).length = 2
    ∧ (processRequest wEnvC3 wRegC3 wStC3 "run" "sess").1
        = aggregateResponses ((List.range 2).map wPlan)
    ∧ (∃ cf : ContextSummary,
        dictGet (processRequest wEnvC3 wRegC3 wStC3 "run" "sess").2.sessions "sess"
          = some cf
        ∧ cf.total_tokens_used
            = (freshContext "sess" "t0").total_tokens_used
              + (((List.range 2).map wPlan).map (fun r => r.tokens_used)).sum) :=
  partial_failure_accounting wEnvC3 wRegC3 wStC3 "run" "sess"
    (freshContext "sess" "t0") wAgentsC3 wPlan 1 rfl rfl rfl (by decide)
    (fun j hj hji => rfl)
    (fun j hj => by
      have hj0 : j = 0 := by omega
      subst hj0
      decide)
    rfl

end Nasus
